import Mathlib

/-!
Verification development for the handle_packetss repository.

The repository has a Go server (src/server/main.go) with the binary
packet encoder and the stage-file REST API, a TypeScript frontend
(hooks and pages) that drives a Rust/Wasm simulation engine, and design
documents describing that engine.  This file embeds the Go and
TypeScript code that is present in the repository shallowly in Lean,
and models the Rust simulation engine (whose source is not present,
only its TypeScript declarations, callers and design notes) from the
specification.  Theorems settle the specification claims against these
definitions.
-/

set_option maxRecDepth 4000

namespace HandlePackets

/-! ## Binary packet encoder (src/server/main.go, encodePacketsBinary)

The Go server serializes each packet as 8 bytes, little-endian:
a u32 id, then the x coordinate quantized to a u16 over the range
0..800, then the y coordinate quantized to a u16 over the range 0..600.
Float64 coordinates are modelled as exact rationals; the Go conversion
of a nonnegative float to uint16 truncates, which on nonnegative values
is the floor. -/

/-- One packet as held by the Go server: a u32 id and float64
coordinates, x in 0..800 and y in 0..600 per the source comments. -/
structure GoPacket where
  id : Nat
  x : ℚ
  y : ℚ
  deriving Repr, DecidableEq

/-- Little-endian byte encoding of a 16-bit value, as written by
binary.Write with binary.LittleEndian for a uint16. -/
def u16le (n : Nat) : List Nat := [n % 256, n / 256 % 256]

/-- Little-endian byte encoding of a 32-bit value, as written by
binary.Write with binary.LittleEndian for a uint32. -/
def u32le (n : Nat) : List Nat :=
  [n % 256, n / 256 % 256, n / 65536 % 256, n / 16777216 % 256]

/-- Go: x16 := uint16(p.X * 65535.0 / 800.0).  For x in range the
float-to-integer conversion truncates toward zero, i.e. takes the
floor of the nonnegative value.  No clamping or range check is done. -/
def quantX (x : ℚ) : Nat := (Int.floor (x * 65535 / 800)).toNat

/-- Go: y16 := uint16(p.Y * 65535.0 / 600.0); same shape as quantX
over the y range 0..600. -/
def quantY (y : ℚ) : Nat := (Int.floor (y * 65535 / 600)).toNat

/-- The 8-byte record written for one packet inside the loop of
encodePacketsBinary: id as u32 LE, then the two quantized u16 fields. -/
def encodePacket (p : GoPacket) : List Nat :=
  u32le p.id ++ u16le (quantX p.x) ++ u16le (quantY p.y)

/-- encodePacketsBinary: the concatenation of the per-packet records,
in list order (the Go loop appends to one buffer). -/
def encodePacketsBinary (ps : List GoPacket) : List Nat :=
  ps.flatMap encodePacket

/-- Read back the little-endian u16 stored at byte offset i. -/
def u16at (l : List Nat) (i : Nat) : Nat := l.getD i 0 + 256 * l.getD (i + 1) 0

/-- Modelled from the spec: the missing decodePackets direction (listed
only as a TODO in src/server/main.go).  Decoding a quantized u16 back
to a coordinate inverts the linear map of the declared x range:
the u16 value times 800 divided by 65535. -/
def decodeCoordX (q : Nat) : ℚ := (q : ℚ) * 800 / 65535

/-- Modelled from the spec: decoding for the y range, the u16 value
times 600 divided by 65535. -/
def decodeCoordY (q : Nat) : ℚ := (q : ℚ) * 600 / 65535

lemma quantX_le (x : ℚ) (h0 : 0 ≤ x) (h : x ≤ 800) : quantX x ≤ 65535 := by
  unfold quantX
  have h1 : x * 65535 / 800 ≤ 65535 := by
    rw [div_le_iff₀ (by norm_num)]; nlinarith
  have h2 := Int.floor_le_floor (α := ℚ) h1
  have h3 : (Int.floor (65535 : ℚ)) = 65535 := by norm_num
  omega

lemma quantY_le (y : ℚ) (h0 : 0 ≤ y) (h : y ≤ 600) : quantY y ≤ 65535 := by
  unfold quantY
  have h1 : y * 65535 / 600 ≤ 65535 := by
    rw [div_le_iff₀ (by norm_num)]; nlinarith
  have h2 := Int.floor_le_floor (α := ℚ) h1
  have h3 : (Int.floor (65535 : ℚ)) = 65535 := by norm_num
  omega

lemma quantX_mono (x x' : ℚ) (h : x ≤ x') : quantX x ≤ quantX x' := by
  unfold quantX
  have h1 : x * 65535 / 800 ≤ x' * 65535 / 800 := by gcongr <;> norm_num
  exact Int.toNat_le_toNat (Int.floor_le_floor h1)

lemma quantY_mono (y y' : ℚ) (h : y ≤ y') : quantY y ≤ quantY y' := by
  unfold quantY
  have h1 : y * 65535 / 600 ≤ y' * 65535 / 600 := by gcongr <;> norm_num
  exact Int.toNat_le_toNat (Int.floor_le_floor h1)

lemma quantX_decode (q : Nat) : quantX (decodeCoordX q) = q := by
  unfold quantX decodeCoordX
  have h : ((q : ℚ) * 800 / 65535 * 65535 / 800) = (q : ℚ) := by field_simp
  rw [h, Int.floor_natCast, Int.toNat_natCast]

lemma quantY_decode (q : Nat) : quantY (decodeCoordY q) = q := by
  unfold quantY decodeCoordY
  have h : ((q : ℚ) * 600 / 65535 * 65535 / 600) = (q : ℚ) := by field_simp
  rw [h, Int.floor_natCast, Int.toNat_natCast]

lemma encodePacket_length (p : GoPacket) : (encodePacket p).length = 8 := rfl

lemma encodePacketsBinary_length (ps : List GoPacket) :
    (encodePacketsBinary ps).length = 8 * ps.length := by
  induction ps with
  | nil => rfl
  | cons p ps ih =>
    simp only [encodePacketsBinary, List.flatMap_cons, List.length_append,
      List.length_cons] at *
    rw [ih]; simp [encodePacket, u32le, u16le]; ring

lemma encodePacketsBinary_record (ps : List GoPacket) :
    ∀ i, (hi : i < ps.length) →
      ((encodePacketsBinary ps).drop (8 * i)).take 8 = encodePacket ps[i] := by
  induction ps with
  | nil => intro i hi; simp at hi
  | cons p ps ih =>
    intro i hi
    match i with
    | 0 =>
      show ((encodePacket p ++ encodePacketsBinary ps).drop 0).take 8 = encodePacket p
      rw [List.drop_zero]
      simp only [encodePacket, u32le, u16le, List.cons_append, List.nil_append]
      rfl
    | (j+1) =>
      have hj : j < ps.length := by simpa using Nat.lt_of_succ_lt_succ hi
      have hdrop : (encodePacket p ++ encodePacketsBinary ps).drop (8 * (j + 1)) =
          (encodePacketsBinary ps).drop (8 * j) := by
        have h8 : ((encodePacket p ++ encodePacketsBinary ps)).drop 8 =
            encodePacketsBinary ps := by
          simp only [encodePacket, u32le, u16le, List.cons_append, List.nil_append]
          rfl
        calc (encodePacket p ++ encodePacketsBinary ps).drop (8 * (j + 1))
            = (((encodePacket p ++ encodePacketsBinary ps)).drop 8).drop (8 * j) := by
              rw [List.drop_drop]; congr 1; ring
          _ = (encodePacketsBinary ps).drop (8 * j) := by rw [h8]
      show ((encodePacket p ++ encodePacketsBinary ps).drop (8 * (j + 1))).take 8 =
        encodePacket ps[j]
      rw [hdrop]; exact ih j hj

/-- C2: the binary entity-state export writes exactly 8 bytes per
packet, record i starting at byte offset 8 i, each record being the
packet id as a little-endian u32 followed by the x coordinate
quantized to a u16 over the range 0..800 (floor of x * 65535 / 800)
and the y coordinate quantized to a u16 over the range 0..600 (floor
of y * 65535 / 600), both quantized values fitting in a u16. -/
theorem encodePacketsBinary_layout (ps : List GoPacket)
    (hr : ∀ p ∈ ps, 0 ≤ p.x ∧ p.x ≤ 800 ∧ 0 ≤ p.y ∧ p.y ≤ 600) :
    (encodePacketsBinary ps).length = 8 * ps.length ∧
    ∀ i, (hi : i < ps.length) →
      ((encodePacketsBinary ps).drop (8 * i)).take 8 =
        u32le ps[i].id ++ u16le (quantX ps[i].x) ++ u16le (quantY ps[i].y) ∧
      quantX ps[i].x ≤ 65535 ∧ quantY ps[i].y ≤ 65535 := by
  refine ⟨encodePacketsBinary_length ps, fun i hi => ?_⟩
  have hp := hr ps[i] (List.getElem_mem hi)
  exact ⟨encodePacketsBinary_record ps i hi,
    quantX_le _ hp.1 hp.2.1, quantY_le _ hp.2.2.1 hp.2.2.2⟩

/-- Witness for C2 at a concrete packet list. -/
theorem encodePacketsBinary_layout_witness :
    (encodePacketsBinary [⟨7, 400, 300⟩]).length = 8 * 1 ∧
    ((encodePacketsBinary [⟨7, 400, 300⟩]).drop 0).take 8 =
      u32le 7 ++ u16le (quantX 400) ++ u16le (quantY 300) := by
  have h := encodePacketsBinary_layout [⟨7, 400, 300⟩]
    (by intro p hp; simp at hp; subst hp; refine ⟨by norm_num, by norm_num, by norm_num, by norm_num⟩)
  exact ⟨h.1, by simpa using (h.2 0 (by norm_num)).1⟩

/-- C9: under the range precondition 0 ≤ x ≤ 800 and 0 ≤ y ≤ 600, the
u16 read back from bytes 4..5 (resp. 6..7) of the encoded record is
exactly the floor of x * 65535 / 800 (resp. y * 65535 / 600) with no
clamping applied, each at most 65535, and the quantization is monotone
in the input coordinate. -/
theorem encodePacket_quantization (p : GoPacket)
    (hx0 : 0 ≤ p.x) (hx1 : p.x ≤ 800) (hy0 : 0 ≤ p.y) (hy1 : p.y ≤ 600) :
    u16at (encodePacket p) 4 = (Int.floor (p.x * 65535 / 800)).toNat ∧
    u16at (encodePacket p) 6 = (Int.floor (p.y * 65535 / 600)).toNat ∧
    quantX p.x ≤ 65535 ∧ quantY p.y ≤ 65535 ∧
    (∀ x', x' ≤ 800 → p.x ≤ x' → quantX p.x ≤ quantX x') ∧
    (∀ y', y' ≤ 600 → p.y ≤ y' → quantY p.y ≤ quantY y') := by
  have hqx := quantX_le p.x hx0 hx1
  have hqy := quantY_le p.y hy0 hy1
  refine ⟨?_, ?_, hqx, hqy, fun x' _ h => quantX_mono _ _ h,
    fun y' _ h => quantY_mono _ _ h⟩
  · have e4 : u16at (encodePacket p) 4 =
        quantX p.x % 256 + 256 * (quantX p.x / 256 % 256) := rfl
    rw [e4]; show _ = quantX p.x; omega
  · have e6 : u16at (encodePacket p) 6 =
        quantY p.y % 256 + 256 * (quantY p.y / 256 % 256) := rfl
    rw [e6]; show _ = quantY p.y; omega

/-- Witness for C9 at a concrete packet. -/
theorem encodePacket_quantization_witness :
    u16at (encodePacket ⟨1, 400, 300⟩) 4 = (Int.floor ((400 : ℚ) * 65535 / 800)).toNat ∧
    quantX 400 ≤ 65535 := by
  have h := encodePacket_quantization ⟨1, 400, 300⟩
    (by norm_num) (by norm_num) (by norm_num) (by norm_num)
  exact ⟨h.1, h.2.2.1⟩

/-- C7: for any coordinate in the declared range, decoding its
quantized u16 value back to a coordinate and re-encoding yields a u16
within one quantization step of the original quantized value (here in
fact exactly equal, over exact arithmetic). -/
theorem quantization_round_trip (x y : ℚ)
    (hx0 : 0 ≤ x) (hx1 : x ≤ 800) (hy0 : 0 ≤ y) (hy1 : y ≤ 600) :
    quantX (decodeCoordX (quantX x)) ≤ quantX x + 1 ∧
    quantX x ≤ quantX (decodeCoordX (quantX x)) + 1 ∧
    quantY (decodeCoordY (quantY y)) ≤ quantY y + 1 ∧
    quantY y ≤ quantY (decodeCoordY (quantY y)) + 1 := by
  rw [quantX_decode, quantY_decode]
  exact ⟨Nat.le_succ _, Nat.le_succ _, Nat.le_succ _, Nat.le_succ _⟩

/-- Witness for C7 at a concrete in-range coordinate pair. -/
theorem quantization_round_trip_witness :
    quantX (decodeCoordX (quantX 123)) ≤ quantX 123 + 1 ∧
    quantY (decodeCoordY (quantY 45)) ≤ quantY 45 + 1 := by
  have h := quantization_round_trip 123 45
    (by norm_num) (by norm_num) (by norm_num) (by norm_num)
  exact ⟨h.1, h.2.2.1⟩

/-! ## Stats snapshot (src/frontend hooks, useStageManager updateStats)

The updateStats callback reads the wasm counters and builds the
SimulationStats record, with slaRate computed as
spawned > 0 ? processed / spawned : 0. -/

/-- The SimulationStats record of useStageManager. -/
structure SimulationStats where
  spawned : Nat
  processed : Nat
  dropped : Nat
  inFlight : Nat
  elapsedMs : ℚ
  slaRate : ℚ
  deriving Repr, DecidableEq

/-- updateStats, given the values read from the wasm getters: builds
the stats snapshot, deriving slaRate as processed / spawned when
spawned is positive and 0 otherwise (the source ternary). -/
def updateStats (spawned processed dropped inFlight : Nat) (elapsedMs : ℚ) :
    SimulationStats :=
  { spawned := spawned, processed := processed, dropped := dropped,
    inFlight := inFlight, elapsedMs := elapsedMs,
    slaRate := if spawned > 0 then (processed : ℚ) / spawned else 0 }

/-- C4: the derived SLA rate in the stats snapshot equals
processed / spawned whenever spawned > 0, and equals 0 when
spawned = 0, for every combination of counter values. -/
theorem updateStats_slaRate (spawned processed dropped inFlight : Nat)
    (elapsedMs : ℚ) :
    (spawned > 0 →
      (updateStats spawned processed dropped inFlight elapsedMs).slaRate =
        (processed : ℚ) / spawned) ∧
    (spawned = 0 →
      (updateStats spawned processed dropped inFlight elapsedMs).slaRate = 0) := by
  constructor
  · intro h; simp [updateStats, h]
  · intro h; simp [updateStats, h]

/-- Witness for C4 at concrete counter values, both branches. -/
theorem updateStats_slaRate_witness :
    (updateStats 4 3 1 0 100).slaRate = (3 : ℚ) / 4 ∧
    (updateStats 0 0 0 0 0).slaRate = 0 :=
  ⟨(updateStats_slaRate 4 3 1 0 100).1 (by norm_num),
   (updateStats_slaRate 0 0 0 0 0).2 rfl⟩

/-! ## Stage file API (src/server/main.go, loadStageConfig / listStages)

The Go REST server lists stage files from the stages directory.  The
filesystem is abstracted as inputs: the result of os.ReadDir (either
an error or the directory entries) and, for each stage id, the result
of loadStageConfig (reading and unmarshalling the JSON file). -/

/-- The Go Meta struct of a stage config. -/
structure GoMeta where
  title : String
  descr : String
  budget : Int
  slaTarget : ℚ
  deriving Repr, DecidableEq

/-- A fixed node entry of the Go MapConfig. -/
structure GoFixedNode where
  id : String
  nodeType : String
  x : Int
  y : Int
  deriving Repr, DecidableEq

/-- The Go Wave struct of a stage config. -/
structure GoWave where
  timeStartMs : Int
  sourceId : String
  count : Int
  durationMs : Int
  packetType : String
  speed : ℚ
  deriving Repr, DecidableEq

/-- The Go StageConfig struct. -/
structure GoStageConfig where
  meta : GoMeta
  fixedNodes : List GoFixedNode
  waves : List GoWave
  deriving Repr, DecidableEq

/-- The Go StageListItem struct returned by the stage list API. -/
structure StageListItem where
  id : String
  title : String
  descr : String
  deriving Repr, DecidableEq

/-- One entry as returned by os.ReadDir: a name and a directory flag. -/
structure DirEntry where
  name : String
  isDir : Bool
  deriving Repr, DecidableEq

/-- listStages: on a directory read error, the error is returned;
otherwise every entry is skipped when it is a directory or does not
end in .json, its stage id is the name with the .json suffix trimmed,
entries whose stage file fails to load are skipped with a warning, and
each remaining entry contributes one StageListItem built from the
loaded config's meta fields. -/
def listStages (readDir : Except String (List DirEntry))
    (load : String → Except String GoStageConfig) :
    Except String (List StageListItem) :=
  match readDir with
  | .error e => .error e
  | .ok entries =>
    .ok (entries.foldl (fun acc e =>
      if e.isDir || !(e.name.endsWith ".json") then acc
      else
        let stageID := e.name.dropRight 5
        match load stageID with
        | .error _ => acc
        | .ok config =>
          acc ++ [{ id := stageID, title := config.meta.title,
                    descr := config.meta.descr }]) [])

/-- The per-entry selection listStages performs, as a filterMap step:
none for directories, non-.json names and bad stage files, and the
stage list item otherwise. -/
def stageListEntry (load : String → Except String GoStageConfig)
    (e : DirEntry) : Option StageListItem :=
  if e.isDir || !(e.name.endsWith ".json") then none
  else
    let stageID := e.name.dropRight 5
    match load stageID with
    | .error _ => none
    | .ok config =>
      some { id := stageID, title := config.meta.title,
             descr := config.meta.descr }

lemma listStages_foldl (load : String → Except String GoStageConfig)
    (entries : List DirEntry) (acc : List StageListItem) :
    entries.foldl (fun acc e =>
      if e.isDir || !(e.name.endsWith ".json") then acc
      else
        let stageID := e.name.dropRight 5
        match load stageID with
        | .error _ => acc
        | .ok config =>
          acc ++ [{ id := stageID, title := config.meta.title,
                    descr := config.meta.descr }]) acc =
      acc ++ entries.filterMap (stageListEntry load) := by
  induction entries generalizing acc with
  | nil => simp
  | cons e entries ih =>
    simp only [List.foldl_cons, List.filterMap_cons]
    by_cases hd : e.isDir || !(e.name.endsWith ".json")
    · rw [show stageListEntry load e = none by simp [stageListEntry, hd]]
      simp only [if_pos hd]
      exact ih acc
    · simp only [if_neg hd]
      cases hload : load (e.name.dropRight 5) with
      | error err =>
        rw [show stageListEntry load e = none by
          simp [stageListEntry, hd, hload]]
        simpa [hload] using ih acc
      | ok config =>
        rw [show stageListEntry load e =
            some { id := e.name.dropRight 5, title := config.meta.title,
                   descr := config.meta.descr } by
          simp [stageListEntry, hd, hload]]
        simp only [hload]
        rw [ih]
        simp

/-- C10: listStages returns an error exactly when the stages directory
itself cannot be read; otherwise it returns one list entry per .json
file that loads successfully, silently skipping directories, non-.json
names, and files that fail to load or parse. -/
theorem listStages_resilient (load : String → Except String GoStageConfig) :
    (∀ e, listStages (.error e) load = .error e) ∧
    (∀ entries, listStages (.ok entries) load =
      .ok (entries.filterMap (stageListEntry load))) := by
  refine ⟨fun e => rfl, fun entries => ?_⟩
  show Except.ok _ = _
  rw [listStages_foldl load entries []]
  simp

/-! ## Simulation engine

Modelled from the spec: the Rust/Wasm simulation engine (entity store,
node graph, wave scheduler, tick engine, stats) is not present in the
repository; only its TypeScript declarations (useWasm), its callers and
the design notes are.  The definitions below model it from sections 3
to 4.5 of the specification.  Randomized quantities (speed within the
variance band, spawn jitter) are modelled by a deterministic
representative, which the spec itself requires to be legitimate
(emission must be deterministic given the same time sequence); the
spec leaves the capacity-threshold formula and the Killer cooldown
open, so per-node capacity overload is not modelled, and a Killer
packet is finalized as processed on arrival as the routing rules
state. -/

/-- Modelled from the spec: one slot of the Entity Store, holding
position, velocity, the active flag, the packet kind (0 Normal,
1 SynFlood, 2 HeavyTask, 3 Killer), the complexity weight and the
current target node index. -/
structure Packet where
  x : ℚ
  y : ℚ
  vx : ℚ
  vy : ℚ
  active : Bool
  kind : Nat
  complexity : Nat
  targetNode : Nat
  deriving Repr, DecidableEq

/-- Modelled from the spec: a topology node with stable id, position
and role (0 Gateway, 1 LoadBalancer, 2 Server, 3 Database), as passed
by simulation_add_node in the frontend callers. -/
structure SimNode where
  id : Nat
  x : ℚ
  y : ℚ
  role : Nat
  deriving Repr, DecidableEq

/-- Modelled from the spec: a pending SpawnTask of the Wave Scheduler,
with origin, target node, total count, emission duration, speed range,
kind, complexity, the already-emitted progress counter and the task
start time. -/
structure SpawnTask where
  x : ℚ
  y : ℚ
  targetNode : Nat
  count : Nat
  durationMs : ℚ
  baseSpeed : ℚ
  speedVariance : ℚ
  kind : Nat
  complexity : Nat
  progress : Nat
  startTime : ℚ
  deriving Repr, DecidableEq

/-- Modelled from the spec: the single Simulation context owning the
Entity Store, the Node Graph, the Wave Scheduler queue, the stage's
declarative wave list, the Stats counters and elapsed simulated time.
The exhausted field is a ghost counter used only to state theorems: it
counts the emission attempts that were dropped because the pool was
exhausted (the spec's capacity-exhaustion drops, which increment
dropped but not spawned); the engine's own observable counters are
spawned, processed and dropped. -/
structure Simulation where
  packets : List Packet
  nodes : List SimNode
  spawnQueue : List SpawnTask
  stageWaves : List SpawnTask
  spawned : Nat
  processed : Nat
  dropped : Nat
  exhausted : Nat
  currentTime : ℚ
  deriving Repr, DecidableEq

/-- An inactive slot; per the spec an inactive packet's other fields
are unspecified and must not be read, so zeros are used. -/
def inactivePacket : Packet :=
  { x := 0, y := 0, vx := 0, vy := 0, active := false, kind := 0,
    complexity := 0, targetNode := 0 }

/-- create(max_packets): all slots start inactive, all counters zero. -/
def create_simulation (maxPackets : Nat) : Simulation :=
  { packets := List.replicate maxPackets inactivePacket, nodes := [],
    spawnQueue := [], stageWaves := [], spawned := 0, processed := 0,
    dropped := 0, exhausted := 0, currentTime := 0 }

/-- The number of active slots, the active-entity count of the spec. -/
def activeCount (ps : List Packet) : Nat := ps.countP (fun p => p.active)

/-- allocate(): place the given packet in the first inactive slot,
returning the updated store, or none when the pool is exhausted. -/
def allocPacket (ps : List Packet) (q : Packet) : Option (List Packet) :=
  match ps with
  | [] => none
  | p :: rest =>
    if p.active then (allocPacket rest q).map (fun rest' => p :: rest')
    else some (q :: rest)

/-- The packet a task emits: positioned at the task origin, aimed at
the target node (direction scaled by the base speed; the spec allows
any deterministic speed in the variance band), active. -/
def mkPacket (nodes : List SimNode) (t : SpawnTask) : Packet :=
  let dir : ℚ × ℚ :=
    match nodes[t.targetNode]? with
    | some nd => (nd.x - t.x, nd.y - t.y)
    | none => (0, 0)
  { x := t.x, y := t.y, vx := dir.1 * t.baseSpeed, vy := dir.2 * t.baseSpeed,
    active := true, kind := t.kind, complexity := t.complexity,
    targetNode := t.targetNode }

/-- One emission attempt: allocate a slot and count the packet as
spawned, or, when the Entity Store is exhausted, silently count it as
dropped (not spawned), per the spec's error conditions. -/
def emitOne (s : Simulation) (t : SpawnTask) : Simulation :=
  match allocPacket s.packets (mkPacket s.nodes t) with
  | some ps => { s with packets := ps, spawned := s.spawned + 1 }
  | none => { s with dropped := s.dropped + 1, exhausted := s.exhausted + 1 }

/-- n emission attempts in sequence. -/
def emitMany (s : Simulation) (t : SpawnTask) : Nat → Simulation
  | 0 => s
  | n + 1 => emitMany (emitOne s t) t n

/-- How many units should have been emitted by now: the full count
immediately when duration is 0, otherwise the floor of
(now - start_time) / duration * count clamped to count. -/
def targetEmitted (t : SpawnTask) (now : ℚ) : Nat :=
  if t.durationMs = 0 then t.count
  else min t.count
    (Int.floor ((now - t.startTime) / t.durationMs * t.count)).toNat

/-- Advance one pending task to the given time: when its start time
has been reached, emit target_emitted - progress new packets and
advance progress by the same amount; otherwise leave it untouched. -/
def advanceTask (s : Simulation) (t : SpawnTask) (now : ℚ) :
    Simulation × SpawnTask :=
  if t.startTime ≤ now then
    let n := targetEmitted t now - t.progress
    (emitMany s t n, { t with progress := t.progress + n })
  else (s, t)

/-- The per-task step of advance_to: advance the task against the
accumulated simulation, and keep it in the rebuilt pending queue only
when its progress has not reached its count. -/
def advanceStep (now : ℚ) (acc : Simulation × List SpawnTask)
    (t : SpawnTask) : Simulation × List SpawnTask :=
  let r1 := advanceTask acc.1 t now
  (r1.1, if r1.2.progress = r1.2.count then acc.2 else acc.2 ++ [r1.2])

/-- advance_to(current_time): advance every pending task, and retire
tasks whose progress has reached their count (the basis of the
pending-wave count used to detect stage completion). -/
def advanceTo (s : Simulation) (now : ℚ) : Simulation :=
  let r := s.spawnQueue.foldl (advanceStep now) (s, [])
  { r.1 with spawnQueue := r.2 }

/-- spawn_wave: push a task on the scheduler queue; actual emission
happens on advance, starting at the current simulated time. -/
def spawn_wave (s : Simulation) (x y : ℚ) (targetNode : Nat) (count : Nat)
    (durationMs baseSpeed speedVariance : ℚ) (kind complexity : Nat) :
    Simulation :=
  { s with spawnQueue := s.spawnQueue ++
      [{ x := x, y := y, targetNode := targetNode, count := count,
         durationMs := durationMs, baseSpeed := baseSpeed,
         speedVariance := speedVariance, kind := kind,
         complexity := complexity, progress := 0,
         startTime := s.currentTime }] }

/-- The stage's bounding region with a margin; a packet outside it is
finalized as dropped (it missed every node). -/
def outOfBounds (x y : ℚ) : Bool :=
  decide (x < -100) || decide (x > 2020) || decide (y < -100) || decide (y > 1180)

/-- First node index with the given role (the spec's tie-break by
lowest node index). -/
def findNodeIdx (nodes : List SimNode) (role : Nat) : Option Nat :=
  nodes.findIdx? (fun nd => nd.role == role)

/-- Arrival test against a node: squared distance within the squared
arrival radius. -/
def arrived (x y : ℚ) (nd : SimNode) : Bool :=
  decide ((x - nd.x) * (x - nd.x) + (y - nd.y) * (y - nd.y) ≤ 100)

/-- Retarget a packet at node index j, keeping it traveling: velocity
recomputed toward the new target. -/
def forward (nodes : List SimNode) (p : Packet) (j : Nat) : Packet :=
  match nodes[j]? with
  | some nd => { p with targetNode := j, vx := nd.x - p.x, vy := nd.y - p.y }
  | none => p

/-- Routing on arrival at a node, per the spec's rules: a Killer is
finalized as processed at any node; a Gateway forwards to the first
LoadBalancer; a LoadBalancer forwards to the first Server; a Server
forwards Normal and HeavyTask packets to the first Database and
finalizes the rest as processed; a Database always finalizes as
processed; a missing downstream node or an unknown role drops the
packet.  Returns the updated packet and the processed and dropped
increments. -/
def routeAt (nodes : List SimNode) (nd : SimNode) (p : Packet) :
    Packet × Nat × Nat :=
  if p.kind = 3 then ({ p with active := false }, 1, 0)
  else if nd.role = 0 then
    match findNodeIdx nodes 1 with
    | some j => (forward nodes p j, 0, 0)
    | none => ({ p with active := false }, 0, 1)
  else if nd.role = 1 then
    match findNodeIdx nodes 2 with
    | some j => (forward nodes p j, 0, 0)
    | none => ({ p with active := false }, 0, 1)
  else if nd.role = 2 then
    if p.kind = 0 ∨ p.kind = 2 then
      match findNodeIdx nodes 3 with
      | some j => (forward nodes p j, 0, 0)
      | none => ({ p with active := false }, 0, 1)
    else ({ p with active := false }, 1, 0)
  else if nd.role = 3 then ({ p with active := false }, 1, 0)
  else ({ p with active := false }, 0, 1)

/-- One tick's transition for a single slot: inactive slots are left
alone; an active packet is integrated by velocity times delta, then
dropped when out of bounds, dropped when its target node no longer
exists, routed when it arrived, and left traveling otherwise.  Returns
the updated slot and the processed and dropped increments. -/
def stepPacket (nodes : List SimNode) (delta : ℚ) (p : Packet) :
    Packet × Nat × Nat :=
  if p.active then
    let p1 := { p with x := p.x + p.vx * delta, y := p.y + p.vy * delta }
    if outOfBounds p1.x p1.y then ({ p1 with active := false }, 0, 1)
    else match nodes[p1.targetNode]? with
    | none => ({ p1 with active := false }, 0, 1)
    | some nd => if arrived p1.x p1.y nd then routeAt nodes nd p1 else (p1, 0, 0)
  else (p, 0, 0)

/-- The per-slot step of tick's fold: append the stepped slot and add
the processed and dropped increments. -/
def tickStep (nodes : List SimNode) (deltaMs : ℚ)
    (acc : List Packet × Nat × Nat) (p : Packet) : List Packet × Nat × Nat :=
  let r1 := stepPacket nodes deltaMs p
  (acc.1 ++ [r1.1], acc.2.1 + r1.2.1, acc.2.2 + r1.2.2)

/-- tick(delta): advance elapsed time, step every slot in slot-index
order, and add the processed and dropped increments to the Stats. -/
def tick (s : Simulation) (deltaMs : ℚ) : Simulation :=
  let r := s.packets.foldl (tickStep s.nodes deltaMs) ([], 0, 0)
  { s with
    packets := r.1, processed := s.processed + r.2.1,
    dropped := s.dropped + r.2.2, currentTime := s.currentTime + deltaMs }

/-- add_node(id, x, y, role): append to the node set. -/
def simulation_add_node (s : Simulation) (id : Nat) (x y : ℚ) (role : Nat) :
    Simulation :=
  { s with nodes := s.nodes ++ [{ id := id, x := x, y := y, role := role }] }

/-- clear_nodes(): remove every node. -/
def simulation_clear_nodes (s : Simulation) : Simulation :=
  { s with nodes := [] }

/-- update_node_position(id, x, y): relocate a node without changing
its identity or role. -/
def simulation_update_node_position (s : Simulation) (id : Nat) (x y : ℚ) :
    Simulation :=
  { s with nodes := s.nodes.map (fun nd =>
      if nd.id = id then { nd with x := x, y := y } else nd) }

/-- reset(): zero all Stats counters and elapsed time and deactivate
every packet; the node set is untouched. -/
def simulation_reset (s : Simulation) : Simulation :=
  { s with
    packets := s.packets.map (fun p => { p with active := false }),
    spawned := 0, processed := 0, dropped := 0, exhausted := 0,
    currentTime := 0 }

/-- reset_stage_waves(): restore the pending queue to the stage's
declarative wave list. -/
def reset_stage_waves (s : Simulation) : Simulation :=
  { s with spawnQueue := s.stageWaves }

/-- get_pending_wave_count(). -/
def get_pending_wave_count (s : Simulation) : Nat := s.spawnQueue.length

/-- get_active_count(). -/
def simulation_get_active_count (s : Simulation) : Nat :=
  activeCount s.packets

/-! ## Stage loading (frontend useStageManager + modelled wasm load)

loadStage and resetStage below embed the TypeScript callbacks of
src/frontend (useStageManager).  The wasm-side load_stage_config they
call is modelled from the spec. -/

/-- A stage config field set as decoded from JSON: a missing field is
none.  Mirrors the meta object of the stage JSON. -/
structure RawMeta where
  title : Option String
  descr : Option String
  budget : Option Int
  slaTarget : Option ℚ
  deriving Repr, DecidableEq

/-- A fixed-node object of the stage JSON, fields optional. -/
structure RawFixedNode where
  id : Option String
  nodeType : Option String
  x : Option ℚ
  y : Option ℚ
  deriving Repr, DecidableEq

/-- A wave object of the stage JSON, fields optional. -/
structure RawWave where
  timeStartMs : Option ℚ
  sourceId : Option String
  count : Option Nat
  durationMs : Option ℚ
  packetType : Option String
  speed : Option ℚ
  deriving Repr, DecidableEq

/-- A stage config as decoded from JSON, sections optional. -/
structure RawStageConfig where
  meta : Option RawMeta
  fixedNodes : Option (List RawFixedNode)
  waves : Option (List RawWave)
  deriving Repr, DecidableEq

/-- All required meta fields are present. -/
def RawMeta.complete (m : RawMeta) : Bool :=
  m.title.isSome && m.descr.isSome && m.budget.isSome && m.slaTarget.isSome

/-- All required fixed-node fields are present. -/
def RawFixedNode.complete (n : RawFixedNode) : Bool :=
  n.id.isSome && n.nodeType.isSome && n.x.isSome && n.y.isSome

/-- All required wave fields are present. -/
def RawWave.complete (w : RawWave) : Bool :=
  w.timeStartMs.isSome && w.sourceId.isSome && w.count.isSome &&
    w.durationMs.isSome && w.packetType.isSome && w.speed.isSome

/-- A stage config has every required field of the external interface:
the meta, map and waves sections with all their fields. -/
def RawStageConfig.complete (c : RawStageConfig) : Bool :=
  (match c.meta with | some m => m.complete | none => false) &&
  (match c.fixedNodes with
   | some ns => ns.all RawFixedNode.complete | none => false) &&
  (match c.waves with | some ws => ws.all RawWave.complete | none => false)

/-- packet_type string to the internal kind enum
(NORMAL, SYN_FLOOD, HEAVY_TASK, KILLER). -/
def kindOfString (s : String) : Nat :=
  if s = "NORMAL" then 0
  else if s = "SYN_FLOOD" then 1
  else if s = "HEAVY_TASK" then 2
  else if s = "KILLER" then 3
  else 0

/-- Node type string to the internal role enum. -/
def roleOfString (s : String) : Nat :=
  if s = "gateway" then 0
  else if s = "load_balancer" then 1
  else if s = "server" then 2
  else if s = "database" then 3
  else 0

/-- Modelled from the spec: load_stage_config, the wasm-side stage
loader whose Rust source is absent.  A config missing any required
field is a hard failure at load time reported to the caller (none),
with no simulation state mutated; a complete config installs the fixed
nodes and the stage waves (the pending queue is seeded with them),
leaving the Stats counters and the entity store untouched. -/
def load_stage_config (s : Simulation) (raw : RawStageConfig) :
    Option Simulation :=
  if raw.complete then
    let rawNodes := raw.fixedNodes.getD []
    let nodes := (List.range rawNodes.length).map (fun i =>
      let fn := rawNodes.getD i { id := none, nodeType := none, x := none, y := none }
      { id := i, x := fn.x.getD 0, y := fn.y.getD 0,
        role := roleOfString (fn.nodeType.getD "") : SimNode })
    let tgt := (findNodeIdx nodes 1).getD 0
    let waves := (raw.waves.getD []).map (fun w =>
      let src := match rawNodes.find? (fun fn => fn.id.getD "" = w.sourceId.getD "") with
        | some fn => ((fn.x.getD 0 : ℚ), (fn.y.getD 0 : ℚ))
        | none => (0, 0)
      { x := src.1, y := src.2, targetNode := tgt, count := w.count.getD 0,
        durationMs := w.durationMs.getD 0, baseSpeed := w.speed.getD 0,
        speedVariance := 0, kind := kindOfString (w.packetType.getD ""),
        complexity := 10, progress := 0,
        startTime := w.timeStartMs.getD 0 : SpawnTask })
    some { s with nodes := nodes, stageWaves := waves, spawnQueue := waves }
  else none

/-- The stage phases of useStageManager. -/
inductive StagePhase where
  | idle
  | loading
  | build
  | running
  | paused
  | completed
  | resultShown
  deriving Repr, DecidableEq

/-- The state the useStageManager hook holds: the phase, the stats
snapshot, the error message and the wasm simulation it drives. -/
structure StageManagerState where
  phase : StagePhase
  stats : SimulationStats
  errMsg : Option String
  sim : Simulation
  deriving Repr, DecidableEq

/-- The initialStats constant of useStageManager: all fields zero. -/
def initialStats : SimulationStats :=
  { spawned := 0, processed := 0, dropped := 0, inFlight := 0,
    elapsedMs := 0, slaRate := 0 }

/-- loadStage of useStageManager, with the fetch outcome supplied as
input (none when the fetch or the JSON parse failed): on any failure
the callback reports false, records the error and returns to IDLE
without touching the simulation; on success it loads the config into
the wasm side, resets the simulation, resets the stats snapshot and
enters BUILD. -/
def loadStage (st : StageManagerState) (fetched : Option RawStageConfig) :
    Bool × StageManagerState :=
  match fetched with
  | none =>
    (false, { st with phase := .idle, errMsg := some "fetch failed" })
  | some raw =>
    match load_stage_config st.sim raw with
    | none =>
      (false, { st with
        phase := .idle,
        errMsg := some "Failed to load stage config in Rust" })
    | some sim1 =>
      (true, { st with
        sim := simulation_reset sim1, stats := initialStats,
        phase := .build, errMsg := none })

/-- resetStage of useStageManager: reset the simulation, restore the
stage waves, reset the stats snapshot and return to BUILD.  No node
operation is invoked. -/
def resetStage (st : StageManagerState) : StageManagerState :=
  { st with
    sim := reset_stage_waves (simulation_reset st.sim),
    stats := initialStats, phase := .build }

/-- The states reachable through the engine's public surface, starting
from create(max_packets). -/
inductive Reachable : Simulation → Prop where
  | create (maxPackets : Nat) : Reachable (create_simulation maxPackets)
  | tick (s : Simulation) (deltaMs : ℚ) :
      Reachable s → Reachable (tick s deltaMs)
  | advance (s : Simulation) (now : ℚ) :
      Reachable s → Reachable (advanceTo s now)
  | spawnWave (s : Simulation) (x y : ℚ) (targetNode count : Nat)
      (durationMs baseSpeed speedVariance : ℚ) (kind complexity : Nat) :
      Reachable s → Reachable (spawn_wave s x y targetNode count
        durationMs baseSpeed speedVariance kind complexity)
  | addNode (s : Simulation) (id : Nat) (x y : ℚ) (role : Nat) :
      Reachable s → Reachable (simulation_add_node s id x y role)
  | clearNodes (s : Simulation) :
      Reachable s → Reachable (simulation_clear_nodes s)
  | moveNode (s : Simulation) (id : Nat) (x y : ℚ) :
      Reachable s → Reachable (simulation_update_node_position s id x y)
  | reset (s : Simulation) : Reachable s → Reachable (simulation_reset s)
  | resetWaves (s : Simulation) :
      Reachable s → Reachable (reset_stage_waves s)
  | loadStage (s s' : Simulation) (raw : RawStageConfig) :
      Reachable s → load_stage_config s raw = some s' → Reachable s'

/-! ## Conservation of the Stats counters -/

/-- The balance identity the engine maintains: every spawned packet is
processed, dropped or still active, and the only dropped increments
not matched by a spawn are the pool-exhaustion drops counted by the
ghost field. -/
def statsBalanced (s : Simulation) : Prop :=
  s.spawned + s.exhausted = s.processed + s.dropped + activeCount s.packets

lemma activeCount_nil : activeCount [] = 0 := rfl

lemma activeCount_cons (p : Packet) (ps : List Packet) :
    activeCount (p :: ps) = activeCount ps + (if p.active then 1 else 0) := by
  simp [activeCount, List.countP_cons]

lemma activeCount_append (l1 l2 : List Packet) :
    activeCount (l1 ++ l2) = activeCount l1 + activeCount l2 := by
  simp [activeCount, List.countP_append]

lemma activeCount_singleton (p : Packet) :
    activeCount [p] = if p.active then 1 else 0 := by
  rw [activeCount_cons]; simp [activeCount]

lemma activeCount_deactivate (ps : List Packet) :
    activeCount (ps.map (fun p => { p with active := false })) = 0 := by
  induction ps with
  | nil => rfl
  | cons p ps ih => simp [List.map_cons, activeCount_cons, ih]

lemma activeCount_replicate_inactive (n : Nat) :
    activeCount (List.replicate n inactivePacket) = 0 := by
  induction n with
  | zero => rfl
  | succ n ih =>
    simp [List.replicate_succ, activeCount_cons, ih,
      show inactivePacket.active = false from rfl]

lemma mkPacket_active (nodes : List SimNode) (t : SpawnTask) :
    (mkPacket nodes t).active = true := rfl

lemma allocPacket_activeCount (q : Packet) (hq : q.active = true) :
    ∀ ps ps', allocPacket ps q = some ps' →
      activeCount ps' = activeCount ps + 1 := by
  intro ps
  induction ps with
  | nil => intro ps' h; simp [allocPacket] at h
  | cons p rest ih =>
    intro ps' h
    by_cases hp : p.active
    · rw [allocPacket, if_pos hp] at h
      cases halloc : allocPacket rest q with
      | none => rw [halloc] at h; simp at h
      | some rest' =>
        rw [halloc] at h
        simp at h
        subst h
        rw [activeCount_cons, activeCount_cons, ih rest' halloc]
        omega
    · rw [allocPacket, if_neg hp] at h
      simp only [Option.some.injEq] at h
      subst h
      rw [activeCount_cons, activeCount_cons]
      simp [hp, hq]

lemma emitOne_balanced (s : Simulation) (t : SpawnTask)
    (h : statsBalanced s) : statsBalanced (emitOne s t) := by
  unfold statsBalanced at h ⊢
  unfold emitOne
  cases halloc : allocPacket s.packets (mkPacket s.nodes t) with
  | none =>
    show s.spawned + (s.exhausted + 1) =
      s.processed + (s.dropped + 1) + activeCount s.packets
    omega
  | some ps =>
    have hc := allocPacket_activeCount (mkPacket s.nodes t)
      (mkPacket_active s.nodes t) s.packets ps halloc
    show s.spawned + 1 + s.exhausted =
      s.processed + s.dropped + activeCount ps
    omega

lemma emitMany_balanced (t : SpawnTask) :
    ∀ n (s : Simulation), statsBalanced s → statsBalanced (emitMany s t n) := by
  intro n
  induction n with
  | zero => intro s h; exact h
  | succ n ih =>
    intro s h
    show statsBalanced (emitMany (emitOne s t) t n)
    exact ih _ (emitOne_balanced s t h)

lemma advanceTask_balanced (s : Simulation) (t : SpawnTask) (now : ℚ)
    (h : statsBalanced s) : statsBalanced (advanceTask s t now).1 := by
  unfold advanceTask
  split
  · exact emitMany_balanced t _ s h
  · exact h

lemma advanceFold_balanced (now : ℚ) (q : List SpawnTask) :
    ∀ acc : Simulation × List SpawnTask, statsBalanced acc.1 →
      statsBalanced ((q.foldl (advanceStep now) acc).1) := by
  induction q with
  | nil => intro acc h; exact h
  | cons t q ih =>
    intro acc h
    simp only [List.foldl_cons]
    exact ih _ (by simpa [advanceStep] using advanceTask_balanced acc.1 t now h)

lemma advanceTo_balanced (s : Simulation) (now : ℚ)
    (h : statsBalanced s) : statsBalanced (advanceTo s now) := by
  have hf := advanceFold_balanced now s.spawnQueue (s, []) h
  unfold statsBalanced at hf ⊢
  unfold advanceTo
  simpa using hf

lemma forward_active (nodes : List SimNode) (p : Packet) (j : Nat) :
    (forward nodes p j).active = p.active := by
  cases h : nodes[j]? <;> simp [forward, h]

lemma routeAt_sum (nodes : List SimNode) (nd : SimNode) (p : Packet)
    (hp : p.active = true) :
    (if (routeAt nodes nd p).1.active then 1 else 0) +
      ((routeAt nodes nd p).2.1 + (routeAt nodes nd p).2.2) = 1 := by
  unfold routeAt
  by_cases hk : p.kind = 3
  · simp [hk]
  · by_cases h0 : nd.role = 0
    · simp only [if_neg hk, if_pos h0]
      cases hf : findNodeIdx nodes 1 with
      | none => simp [hf]
      | some j => simp [hf, forward_active, hp]
    · by_cases h1 : nd.role = 1
      · simp only [if_neg hk, if_neg h0, if_pos h1]
        cases hf : findNodeIdx nodes 2 with
        | none => simp [hf]
        | some j => simp [hf, forward_active, hp]
      · by_cases h2 : nd.role = 2
        · simp only [if_neg hk, if_neg h0, if_neg h1, if_pos h2]
          by_cases hkk : p.kind = 0 ∨ p.kind = 2
          · simp only [if_pos hkk]
            cases hf : findNodeIdx nodes 3 with
            | none => simp [hf]
            | some j => simp [hf, forward_active, hp]
          · simp [if_neg hkk]
        · by_cases h3 : nd.role = 3
          · simp [hk, h0, h1, h2, h3]
          · simp [hk, h0, h1, h2, h3]

lemma stepPacket_sum (nodes : List SimNode) (delta : ℚ) (p : Packet) :
    (if (stepPacket nodes delta p).1.active then 1 else 0) +
      ((stepPacket nodes delta p).2.1 + (stepPacket nodes delta p).2.2) =
      (if p.active then 1 else 0) := by
  by_cases hp : p.active
  · have hp' : p.active = true := hp
    simp only [stepPacket, hp', if_true]
    by_cases hb : outOfBounds (p.x + p.vx * delta) (p.y + p.vy * delta)
    · simp [hb]
    · simp only [hb, Bool.false_eq_true, if_false]
      cases hn : nodes[p.targetNode]? with
      | none => simp
      | some nd =>
        by_cases ha : arrived (p.x + p.vx * delta) (p.y + p.vy * delta) nd
        · simp only [ha, if_true]
          exact routeAt_sum nodes nd _ rfl
        · simp [ha]
  · simp [stepPacket, hp]

lemma tickFold_sum (nodes : List SimNode) (delta : ℚ) (l : List Packet) :
    ∀ acc : List Packet × Nat × Nat,
      activeCount ((l.foldl (tickStep nodes delta) acc).1) +
        ((l.foldl (tickStep nodes delta) acc).2.1 +
          (l.foldl (tickStep nodes delta) acc).2.2) =
      activeCount acc.1 + (acc.2.1 + acc.2.2) + activeCount l := by
  induction l with
  | nil => intro acc; simp [activeCount_nil]
  | cons p l ih =>
    intro acc
    simp only [List.foldl_cons]
    rw [ih (tickStep nodes delta acc p)]
    have hs := stepPacket_sum nodes delta p
    have hap : activeCount ((tickStep nodes delta acc p).1) =
        activeCount acc.1 +
          (if (stepPacket nodes delta p).1.active then 1 else 0) := by
      show activeCount (acc.1 ++ [(stepPacket nodes delta p).1]) = _
      rw [activeCount_append, activeCount_singleton]
    have h21 : (tickStep nodes delta acc p).2.1 =
        acc.2.1 + (stepPacket nodes delta p).2.1 := rfl
    have h22 : (tickStep nodes delta acc p).2.2 =
        acc.2.2 + (stepPacket nodes delta p).2.2 := rfl
    rw [hap, h21, h22, activeCount_cons]
    omega

lemma tick_balanced (s : Simulation) (delta : ℚ)
    (h : statsBalanced s) : statsBalanced (tick s delta) := by
  unfold statsBalanced at h ⊢
  unfold tick
  have hf := tickFold_sum s.nodes delta s.packets ([], 0, 0)
  simp only [activeCount_nil] at hf
  simp only
  omega

lemma load_stage_config_core (s s' : Simulation) (raw : RawStageConfig)
    (h : load_stage_config s raw = some s') :
    s'.packets = s.packets ∧ s'.spawned = s.spawned ∧
    s'.processed = s.processed ∧ s'.dropped = s.dropped ∧
    s'.exhausted = s.exhausted := by
  unfold load_stage_config at h
  split at h
  · simp only [Option.some.injEq] at h
    subst h
    exact ⟨rfl, rfl, rfl, rfl, rfl⟩
  · simp at h

/-- Every state reachable through the public surface satisfies the
balance identity. -/
lemma reachable_balanced (s : Simulation) (h : Reachable s) :
    statsBalanced s := by
  induction h with
  | create maxPackets =>
    unfold statsBalanced create_simulation
    simp [activeCount_replicate_inactive]
  | tick s delta _ ih => exact tick_balanced s delta ih
  | advance s now _ ih => exact advanceTo_balanced s now ih
  | spawnWave s x y targetNode count durationMs baseSpeed speedVariance
      kind complexity _ ih =>
    unfold statsBalanced at ih ⊢
    simpa [spawn_wave] using ih
  | addNode s id x y role _ ih =>
    unfold statsBalanced at ih ⊢
    simpa [simulation_add_node] using ih
  | clearNodes s _ ih =>
    unfold statsBalanced at ih ⊢
    simpa [simulation_clear_nodes] using ih
  | moveNode s id x y _ ih =>
    unfold statsBalanced at ih ⊢
    simpa [simulation_update_node_position] using ih
  | reset s _ ih =>
    unfold statsBalanced
    simp [simulation_reset, activeCount_deactivate]
  | resetWaves s _ ih =>
    unfold statsBalanced at ih ⊢
    simpa [reset_stage_waves] using ih
  | loadStage s s' raw _ hload ih =>
    obtain ⟨h1, h2, h3, h4, h5⟩ := load_stage_config_core s s' raw hload
    unfold statsBalanced at ih ⊢
    rw [h1, h2, h3, h4, h5]
    exact ih

lemma emitOne_nodes (s : Simulation) (t : SpawnTask) :
    (emitOne s t).nodes = s.nodes := by
  unfold emitOne
  cases halloc : allocPacket s.packets (mkPacket s.nodes t) <;> rfl

lemma emitMany_nodes (t : SpawnTask) :
    ∀ n (s : Simulation), (emitMany s t n).nodes = s.nodes := by
  intro n
  induction n with
  | zero => intro s; rfl
  | succ n ih =>
    intro s
    show (emitMany (emitOne s t) t n).nodes = s.nodes
    rw [ih (emitOne s t), emitOne_nodes]

lemma advanceTask_nodes (s : Simulation) (t : SpawnTask) (now : ℚ) :
    (advanceTask s t now).1.nodes = s.nodes := by
  unfold advanceTask
  split
  · exact emitMany_nodes t _ s
  · rfl

lemma advanceFold_nodes (now : ℚ) (q : List SpawnTask) :
    ∀ acc : Simulation × List SpawnTask,
      ((q.foldl (advanceStep now) acc).1).nodes = acc.1.nodes := by
  induction q with
  | nil => intro acc; rfl
  | cons t q ih =>
    intro acc
    simp only [List.foldl_cons]
    rw [ih (advanceStep now acc t)]
    show (advanceTask acc.1 t now).1.nodes = acc.1.nodes
    exact advanceTask_nodes acc.1 t now

lemma advanceTo_nodes (s : Simulation) (now : ℚ) :
    (advanceTo s now).nodes = s.nodes := by
  unfold advanceTo
  exact advanceFold_nodes now s.spawnQueue (s, [])

lemma emitMany_totals (t : SpawnTask) :
    ∀ n (s : Simulation),
      (emitMany s t n).spawned + (emitMany s t n).dropped =
        s.spawned + s.dropped + n := by
  intro n
  induction n with
  | zero => intro s; rfl
  | succ n ih =>
    intro s
    show (emitMany (emitOne s t) t n).spawned +
      (emitMany (emitOne s t) t n).dropped = s.spawned + s.dropped + (n + 1)
    rw [ih (emitOne s t)]
    unfold emitOne
    cases halloc : allocPacket s.packets (mkPacket s.nodes t) with
    | none =>
      show s.spawned + (s.dropped + 1) + n = s.spawned + s.dropped + (n + 1)
      omega
    | some ps =>
      show s.spawned + 1 + s.dropped + n = s.spawned + s.dropped + (n + 1)
      omega

lemma targetEmitted_le (t : SpawnTask) (now : ℚ) :
    targetEmitted t now ≤ t.count := by
  unfold targetEmitted
  split
  · exact Nat.le_refl _
  · exact Nat.min_le_left _ _

/-! ## Claim theorems for the engine -/

/-- C1 counterexample: the identity spawned = processed + dropped +
active-count fails after a tick() call on a run in which an emission
found the pool exhausted (pool of 0, wave of 1 at duration 0): the
exhaustion drop increments dropped without incrementing spawned, so
after the next tick the right side exceeds the left by one. -/
theorem tick_conservation_counterexample :
    ¬ ((tick (advanceTo
          (spawn_wave (create_simulation 0) 0 0 0 1 0 5 0 0 10) 0) 16).spawned =
        (tick (advanceTo
          (spawn_wave (create_simulation 0) 0 0 0 1 0 5 0 0 10) 0) 16).processed +
        (tick (advanceTo
          (spawn_wave (create_simulation 0) 0 0 0 1 0 5 0 0 10) 0) 16).dropped +
        activeCount (tick (advanceTo
          (spawn_wave (create_simulation 0) 0 0 0 1 0 5 0 0 10) 0) 16).packets) := by
  intro h
  have h1 : (tick (advanceTo
      (spawn_wave (create_simulation 0) 0 0 0 1 0 5 0 0 10) 0) 16).spawned = 0 := rfl
  have h2 : (tick (advanceTo
      (spawn_wave (create_simulation 0) 0 0 0 1 0 5 0 0 10) 0) 16).processed = 0 := rfl
  have h3 : (tick (advanceTo
      (spawn_wave (create_simulation 0) 0 0 0 1 0 5 0 0 10) 0) 16).dropped = 1 := rfl
  have h4 : activeCount (tick (advanceTo
      (spawn_wave (create_simulation 0) 0 0 0 1 0 5 0 0 10) 0) 16).packets = 0 := rfl
  omega

/-- C1 (amended): after every tick() call on a reachable state,
spawned plus the number of pool-exhaustion emission drops equals
processed + dropped + active-entity-count; in particular the claimed
identity spawned = processed + dropped + active-count holds whenever
no emission has found the pool exhausted. -/
theorem tick_stats_conservation (s : Simulation) (h : Reachable s)
    (deltaMs : ℚ) :
    (tick s deltaMs).spawned + (tick s deltaMs).exhausted =
      (tick s deltaMs).processed + (tick s deltaMs).dropped +
        activeCount (tick s deltaMs).packets ∧
    ((tick s deltaMs).exhausted = 0 →
      (tick s deltaMs).spawned =
        (tick s deltaMs).processed + (tick s deltaMs).dropped +
          activeCount (tick s deltaMs).packets) := by
  have hb := reachable_balanced _ (Reachable.tick s deltaMs h)
  unfold statsBalanced at hb
  exact ⟨hb, fun he => by omega⟩

/-- Witness for C1's amended theorem at a freshly created simulation. -/
theorem tick_stats_conservation_witness :
    (tick (create_simulation 3) 16).spawned +
        (tick (create_simulation 3) 16).exhausted =
      (tick (create_simulation 3) 16).processed +
        (tick (create_simulation 3) 16).dropped +
        activeCount (tick (create_simulation 3) 16).packets :=
  (tick_stats_conservation (create_simulation 3) (Reachable.create 3) 16).1

/-- C3: advancing a due pending task to the current time emits exactly
target_emitted - progress packets (each emission attempt increments
spawned or dropped by one), where target_emitted is the full count for
a zero duration and otherwise the floor of
(now - start_time) / duration * count clamped to count; progress
advances by the same amount and never exceeds count. -/
theorem advanceTask_emission (s : Simulation) (t : SpawnTask) (now : ℚ)
    (hstart : t.startTime ≤ now) (hprog : t.progress ≤ t.count) :
    (advanceTask s t now).2.progress =
      t.progress + (targetEmitted t now - t.progress) ∧
    (advanceTask s t now).2.progress ≤ t.count ∧
    (advanceTask s t now).1.spawned + (advanceTask s t now).1.dropped =
      s.spawned + s.dropped + (targetEmitted t now - t.progress) ∧
    (t.durationMs = 0 → targetEmitted t now = t.count ∧
      (advanceTask s t now).2.progress = t.count) := by
  have hle := targetEmitted_le t now
  have h2 : (advanceTask s t now).2.progress =
      t.progress + (targetEmitted t now - t.progress) := by
    unfold advanceTask
    rw [if_pos hstart]
  have h1 : (advanceTask s t now).1.spawned +
      (advanceTask s t now).1.dropped =
      s.spawned + s.dropped + (targetEmitted t now - t.progress) := by
    unfold advanceTask
    rw [if_pos hstart]
    exact emitMany_totals t _ s
  refine ⟨h2, by omega, h1, fun hdur => ?_⟩
  have : targetEmitted t now = t.count := by unfold targetEmitted; rw [if_pos hdur]
  exact ⟨this, by omega⟩

/-- Witness for C3: a wave of 50 over 2000 ms, 10 already emitted,
advanced to time 1000. -/
theorem advanceTask_emission_witness :
    (advanceTask (create_simulation 2)
        { x := 0, y := 0, targetNode := 0, count := 50, durationMs := 2000,
          baseSpeed := 5, speedVariance := 1, kind := 0, complexity := 10,
          progress := 10, startTime := 0 } 1000).2.progress =
      10 + (targetEmitted
        { x := 0, y := 0, targetNode := 0, count := 50, durationMs := 2000,
          baseSpeed := 5, speedVariance := 1, kind := 0, complexity := 10,
          progress := 10, startTime := 0 } 1000 - 10) ∧
    (advanceTask (create_simulation 2)
        { x := 0, y := 0, targetNode := 0, count := 50, durationMs := 2000,
          baseSpeed := 5, speedVariance := 1, kind := 0, complexity := 10,
          progress := 10, startTime := 0 } 1000).2.progress ≤ 50 := by
  have h := advanceTask_emission (create_simulation 2)
    { x := 0, y := 0, targetNode := 0, count := 50, durationMs := 2000,
      baseSpeed := 5, speedVariance := 1, kind := 0, complexity := 10,
      progress := 10, startTime := 0 } 1000 (by norm_num) (by norm_num)
  exact ⟨h.1, h.2.1⟩

/-- C5: an emission attempt that finds the pool exhausted silently
drops the requested packet, incrementing dropped and not spawned and
leaving the store unchanged; and in the boundary scenario of a pool of
10 with a wave of 20 at duration 0 advanced at time 0, exactly 10
packets are spawned and 10 dropped with no pending progress left. -/
theorem pool_exhaustion_drop :
    (∀ (s : Simulation) (t : SpawnTask),
      allocPacket s.packets (mkPacket s.nodes t) = none →
        (emitOne s t).dropped = s.dropped + 1 ∧
        (emitOne s t).spawned = s.spawned ∧
        (emitOne s t).packets = s.packets) ∧
    (advanceTo (spawn_wave (create_simulation 10) 0 0 0 20 0 5 0 0 10)
        0).spawned = 10 ∧
    (advanceTo (spawn_wave (create_simulation 10) 0 0 0 20 0 5 0 0 10)
        0).dropped = 10 ∧
    (advanceTo (spawn_wave (create_simulation 10) 0 0 0 20 0 5 0 0 10)
        0).spawnQueue = [] := by
  refine ⟨fun s t h => ?_, by decide, by decide, by decide⟩
  unfold emitOne
  rw [h]
  exact ⟨rfl, rfl, rfl⟩

/-- Witness for C5's universal part: the empty pool of create(0) is
exhausted, so the emission drops. -/
theorem pool_exhaustion_drop_witness :
    (emitOne (create_simulation 0)
        { x := 0, y := 0, targetNode := 0, count := 1, durationMs := 0,
          baseSpeed := 5, speedVariance := 0, kind := 0, complexity := 10,
          progress := 0, startTime := 0 }).dropped =
      (create_simulation 0).dropped + 1 ∧
    (emitOne (create_simulation 0)
        { x := 0, y := 0, targetNode := 0, count := 1, durationMs := 0,
          baseSpeed := 5, speedVariance := 0, kind := 0, complexity := 10,
          progress := 0, startTime := 0 }).spawned =
      (create_simulation 0).spawned := by
  have h := pool_exhaustion_drop.1 (create_simulation 0)
    { x := 0, y := 0, targetNode := 0, count := 1, durationMs := 0,
      baseSpeed := 5, speedVariance := 0, kind := 0, complexity := 10,
      progress := 0, startTime := 0 } rfl
  exact ⟨h.1, h.2.1⟩

/-- C6: loading a stage config with missing required fields is a hard
failure at load time: loadStage reports false to the caller, records
the error, returns to IDLE, and neither the simulation nor the stats
snapshot is mutated (no partial load). -/
theorem loadStage_malformed_fails (st : StageManagerState)
    (raw : RawStageConfig) (h : raw.complete = false) :
    (loadStage st (some raw)).1 = false ∧
    (loadStage st (some raw)).2.sim = st.sim ∧
    (loadStage st (some raw)).2.stats = st.stats ∧
    (loadStage st (some raw)).2.phase = StagePhase.idle := by
  have hnone : load_stage_config st.sim raw = none := by
    unfold load_stage_config
    rw [h]
    rfl
  simp [loadStage, hnone]

/-- Witness for C6 at a config missing every section. -/
theorem loadStage_malformed_fails_witness :
    (loadStage
        { phase := .idle, stats := initialStats, errMsg := none,
          sim := create_simulation 1 }
        (some { meta := none, fixedNodes := none, waves := none })).1 = false ∧
    (loadStage
        { phase := .idle, stats := initialStats, errMsg := none,
          sim := create_simulation 1 }
        (some { meta := none, fixedNodes := none, waves := none })).2.sim =
      create_simulation 1 := by
  have h := loadStage_malformed_fails
    { phase := .idle, stats := initialStats, errMsg := none,
      sim := create_simulation 1 }
    { meta := none, fixedNodes := none, waves := none } rfl
  exact ⟨h.1, h.2.1⟩

/-- C8: resetting the stage zeroes all Stats counters, resets the
stats snapshot and deactivates every packet, while leaving the node
set unchanged; no engine operation other than clear_nodes removes
nodes (tick, advance, spawn, reset and wave reset all preserve them),
and clear_nodes empties the node set. -/
theorem resetStage_preserves_nodes :
    (∀ st : StageManagerState,
      (resetStage st).sim.spawned = 0 ∧
      (resetStage st).sim.processed = 0 ∧
      (resetStage st).sim.dropped = 0 ∧
      simulation_get_active_count (resetStage st).sim = 0 ∧
      (resetStage st).stats = initialStats ∧
      (resetStage st).sim.nodes = st.sim.nodes) ∧
    (∀ s : Simulation, (simulation_clear_nodes s).nodes = []) ∧
    (∀ (s : Simulation) (deltaMs : ℚ), (tick s deltaMs).nodes = s.nodes) ∧
    (∀ (s : Simulation) (now : ℚ), (advanceTo s now).nodes = s.nodes) ∧
    (∀ (s : Simulation) (x y : ℚ) (targetNode count : Nat)
      (durationMs baseSpeed speedVariance : ℚ) (kind complexity : Nat),
      (spawn_wave s x y targetNode count durationMs baseSpeed speedVariance
        kind complexity).nodes = s.nodes) ∧
    (∀ s : Simulation, (simulation_reset s).nodes = s.nodes) ∧
    (∀ s : Simulation, (reset_stage_waves s).nodes = s.nodes) := by
  refine ⟨fun st => ?_, fun s => rfl, fun s d => rfl,
    fun s now => advanceTo_nodes s now, fun s x y tn c dm bs sv k cx => rfl,
    fun s => rfl, fun s => rfl⟩
  refine ⟨rfl, rfl, rfl, ?_, rfl, rfl⟩
  show activeCount ((resetStage st).sim.packets) = 0
  show activeCount (st.sim.packets.map (fun p => { p with active := false })) = 0
  exact activeCount_deactivate st.sim.packets

end HandlePackets
